import Mathlib

/-!
# OnlyThemes backend: verification of the two HTTP handlers and the
  `getRandomTheme` stored procedure

Shallow embedding of the repository's two source files:

* `backend/api/ExtensionUpsert/index.ts` — the extension upsert handler.
* The `ThemeExtensionFetch` handler together with the `getRandomTheme`
  stored-procedure body it installs into the `themes` container.

Modelling conventions:

* A JavaScript value that may be `undefined`/`null` is an `Option`; reading a
  property of an absent value is a thrown `TypeError`, modelled as
  `Except.error`.
* `context.res` assignments in the upsert handler are recorded in order, in a
  list; the response the framework sends is the last assignment.
* The document store is a list of documents.  The paginated, filtered query
  issued by the stored procedure is modelled by an offset into the filtered
  projection of the container: a continuation token is such an offset, a page
  is `take pageSize` of `drop offset`.
* `Math.random()` is a rational parameter `random` (the sandbox guarantees
  `0 ≤ random < 1`); the host's willingness to accept further
  `queryDocuments` calls within the invocation's time budget is a `budget`
  parameter counting the query calls that will still be accepted.
-/

/-- The `Extension` model (`backend/api/Models/extension`): an id, the
`extensionId` cross-reference and a display name; further attributes are
opaque and irrelevant to control flow. -/
structure Extension where
  id : String
  extensionId : String
  displayName : String
  deriving DecidableEq

/-- A response assigned to `context.res` by the upsert handler:
`status` plus an optional `body` (the upserted resource id, or the raw
error text). -/
structure UpsertRes where
  status : Nat
  body : Option String
  deriving DecidableEq

/-- JavaScript truthiness of a possibly-absent object value: objects are
truthy, `undefined`/`null` are falsy. -/
def jsTruthy {α : Type} (x : Option α) : Bool := x.isSome

/-- The response assigned inside the `try`/`catch` of the upsert handler:
`200` with `resource.id` when `container.items.upsert` succeeded, `500`
with the caught error when it threw. -/
def upsertBranchRes (r : Except String String) : UpsertRes :=
  match r with
  | Except.ok rid => { status := 200, body := some rid }
  | Except.error err => { status := 500, body := some err }

/-- The `httpTrigger` of `backend/api/ExtensionUpsert/index.ts`.

`extension` is `context.bindings.extension` (`none` = absent binding);
`upsertOp` models the `try` block's database calls (create-if-not-exists of
database and container followed by `container.items.upsert`): `Except.ok rid`
is a successful upsert returning `resource.id`, `Except.error err` a throw
anywhere in the block.

The returned list is the sequence of assignments to `context.res`, in program
order; the framework sends the last one.  Note that the handler logs
`extension.displayName` *before* the `if (extension)` guard, so an absent
binding throws a `TypeError` instead of reaching the trailing `404`
assignment. -/
def extensionUpsertHandler (extension : Option Extension)
    (upsertOp : Extension → Except String String) :
    Except String (List UpsertRes) := do
  -- context.log(`DataParser: ${extension.displayName}`)
  let _displayName ← match extension with
    | none =>
        Except.error "TypeError: Cannot read properties of undefined (reading displayName)"
    | some ext => Except.ok ext.displayName
  -- if (extension) { try { ... context.res = 200/500 ... } }
  let assignments : List UpsertRes :=
    if jsTruthy extension then
      match extension with
      | some ext => [upsertBranchRes (upsertOp ext)]
      | none => []
    else []
  -- context.res = { status: 404 };  (unconditional, after the if)
  pure (assignments ++ [{ status := 404, body := none }])

/-- The response the hosting framework actually sends: the final value of
`context.res`, i.e. the last assignment (none when the handler threw). -/
def finalResponse (r : Except String (List UpsertRes)) : Option UpsertRes :=
  match r with
  | Except.ok l => l.getLast?
  | Except.error _ => none

/-! ## The `getRandomTheme` stored procedure

The procedure body is shipped as a string inside `getStoredProcedure`; its
logic (`tryQuery` / `query` / `onReadDocuments` / `setBody` /
`getRandomInt`) is embedded below.  The continuation-passing loop
`tryQuery → query → onReadDocuments → tryQuery` calls `setBody` exactly once,
at whichever exit it stops, so it is modelled by `scanLoop`, which returns the
accumulated `result` array and the continuation token handed to `setBody`,
with `setBody` applied to that pair afterwards. -/

/-- A document of the `themes` container as the procedure and the fetch
handler see it: an `id`, the `imageCaptured` eligibility flag and the
`extensionId` cross-reference; other attributes are opaque. -/
structure ThemeDoc where
  id : String
  imageCaptured : Bool
  extensionId : String
  deriving DecidableEq

/-- A row produced by the procedure's projection query
`select c.id from c where c.imageCaptured = true`: an object holding just the
document id. -/
structure IdDoc where
  id : String
  deriving DecidableEq

/-- The object passed to `getContext().getResponse().setBody`: the chosen
document (absent when the accumulated array was empty) and the continuation
token. -/
structure ProcBody where
  randomTheme : Option IdDoc
  continuationToken : Option Nat
  deriving DecidableEq

/-- The filtered projection the procedure's query ranges over: the ids of the
container documents with `imageCaptured = true`, in container order. -/
def matchingIds (docs : List ThemeDoc) : List IdDoc :=
  (docs.filter (fun c => c.imageCaptured)).map (fun c => { id := c.id })

/-- The script function `getRandomInt(min, max)` = `Math.floor(Math.random() * (max - min + 1)) + min`,
with `Math.random()` passed in as `random`. -/
def getRandomInt (random : ℚ) (min max : Int) : Int :=
  ⌊random * ((max : ℚ) - (min : ℚ) + 1)⌋ + min

/-- JavaScript array indexing `l[i]` with a possibly out-of-range or negative
integer index: `undefined` (`none`) outside the bounds. -/
def jsIndex {α : Type} (l : List α) (i : Int) : Option α :=
  if i < 0 then none else l[i.toNat]?

/-- The script function `setBody(continuationToken)`: picks `result[getRandomInt(0, result.length - 1)]`
and packages it with the token. -/
def setBody (random : ℚ) (result : List IdDoc) (continuationToken : Option Nat) :
    ProcBody :=
  let randomIndex := getRandomInt random 0 ((result.length : Int) - 1)
  { randomTheme := jsIndex result randomIndex, continuationToken := continuationToken }

/-- The procedure's scan loop over the filtered projection `filtered`.

`maxResult` is the shared page-size / result-count cap (1000); `budget` is the
number of `queryDocuments` calls the host will still accept before reporting
`false` (the near-time-limit signal); `result` is the accumulator; `tok` the
continuation token about to be used.  Returns the final accumulator and the
token passed to `setBody`:

* `tryQuery`: when `result.length >= maxResult`, or when `query` is not
  accepted (budget exhausted), exit with the current token;
* `query`/`onReadDocuments`: fetch the page at the token's offset, append it,
  and either loop on the server continuation or exit with a null token when
  the scan is complete. -/
def scanLoop (filtered : List IdDoc) (maxResult : Nat) :
    Nat → List IdDoc → Option Nat → List IdDoc × Option Nat
  | 0, result, tok => (result, tok)
  | budget + 1, result, tok =>
    if result.length ≥ maxResult then (result, tok)
    else
      let k := tok.getD 0
      let docFeed := (filtered.drop k).take maxResult
      let result' := result ++ docFeed
      if k + maxResult < filtered.length then
        scanLoop filtered maxResult budget result' (some (k + maxResult))
      else
        (result', none)

/-- One invocation of the `getRandomTheme` stored procedure on a container
holding `docs`, entered with `continuationToken` (`none` = the empty token of
a first call). -/
def getRandomTheme (random : ℚ) (docs : List ThemeDoc) (budget : Nat)
    (continuationToken : Option Nat) : ProcBody :=
  let p := scanLoop (matchingIds docs) 1000 budget [] continuationToken
  setBody random p.1 p.2

/-- The client-side resumption protocol the spec describes (not implemented by
the HTTP handler): invoke the procedure starting from the empty token, then
keep reinvoking it with each returned continuation token.  `resumeScan docs
budget n` is the state after `n` reinvocations: the documents covered by the
scans so far and the last returned token. -/
def resumeScan (docs : List ThemeDoc) (budget : Nat) :
    Nat → List IdDoc × Option Nat
  | 0 => scanLoop (matchingIds docs) 1000 budget [] none
  | n + 1 =>
    let p := resumeScan docs budget n
    match p.2 with
    | none => (p.1, none)
    | some t =>
      let q := scanLoop (matchingIds docs) 1000 budget [] (some t)
      (p.1 ++ q.1, q.2)

/-- Characterization of a single invocation's scan (with at least one query
accepted): starting from token offset `k` with an empty accumulator, it
accumulates exactly the page `(filtered.drop k).take maxResult` and hands
`setBody` the token `k + maxResult` when more documents remain, else `null`. -/
theorem scanLoop_single (filtered : List IdDoc) (maxResult budget : Nat)
    (hm : 0 < maxResult) (tok : Option Nat) :
    scanLoop filtered maxResult (budget + 1) [] tok =
      ((filtered.drop (tok.getD 0)).take maxResult,
        if tok.getD 0 + maxResult < filtered.length then
          some (tok.getD 0 + maxResult) else none) := by
  simp only [scanLoop, List.length_nil, List.nil_append, ge_iff_le]
  rw [if_neg (by omega)]
  by_cases h : tok.getD 0 + maxResult < filtered.length
  · rw [if_pos h, if_pos h]
    have hlen : ((filtered.drop (tok.getD 0)).take maxResult).length = maxResult := by
      rw [List.length_take, List.length_drop]
      omega
    cases budget with
    | zero => rw [scanLoop]
    | succ b =>
      rw [scanLoop, if_pos (by omega)]
  · rw [if_neg h, if_neg h]

/-- C1: for every present extension input the upsert handler's final response
is `404` with no body: the try/catch branch first assigns `200` with the
resource id (success) or `500` with the error (failure), and the trailing
unconditional assignment then overwrites it with `404`. -/
theorem extensionUpsert_present_always_404 (ext : Extension)
    (upsertOp : Extension → Except String String) :
    extensionUpsertHandler (some ext) upsertOp =
      Except.ok [upsertBranchRes (upsertOp ext), { status := 404, body := none }] ∧
    finalResponse (extensionUpsertHandler (some ext) upsertOp) =
      some { status := 404, body := none } := by
  constructor
  · simp [extensionUpsertHandler, jsTruthy]
  · simp [extensionUpsertHandler, finalResponse, jsTruthy]

/-- C5: with an absent extension binding the handler does *not* fall through
to a `404` response: it throws a `TypeError` while logging
`extension.displayName`, before the `if (extension)` guard is reached, so no
response is produced at all (the upsert is indeed never attempted). -/
theorem extensionUpsert_absent_throws
    (upsertOp : Extension → Except String String) :
    extensionUpsertHandler none upsertOp =
      Except.error "TypeError: Cannot read properties of undefined (reading displayName)" ∧
    finalResponse (extensionUpsertHandler none upsertOp) ≠
      some { status := 404, body := none } := by
  constructor
  · rfl
  · simp [extensionUpsertHandler, finalResponse]

/-- Every element the scan loop ever accumulates is either in the initial
accumulator or drawn from the filtered projection it pages over. -/
theorem scanLoop_mem (filtered : List IdDoc) (maxResult : Nat) :
    ∀ (budget : Nat) (result : List IdDoc) (tok : Option Nat) (x : IdDoc),
      x ∈ (scanLoop filtered maxResult budget result tok).1 →
      x ∈ result ∨ x ∈ filtered := by
  intro budget
  induction budget with
  | zero => intro result tok x hx; exact Or.inl hx
  | succ b ih =>
    intro result tok x hx
    simp only [scanLoop] at hx
    split at hx
    · exact Or.inl hx
    · split at hx
      · rcases ih _ _ _ hx with h | h
        · rcases List.mem_append.1 h with h' | h'
          · exact Or.inl h'
          · exact Or.inr (List.drop_subset _ _ (List.take_subset _ _ h'))
        · exact Or.inr h
      · rcases List.mem_append.1 hx with h' | h'
        · exact Or.inl h'
        · exact Or.inr (List.drop_subset _ _ (List.take_subset _ _ h'))

/-- C7: only documents satisfying `imageCaptured = true` are ever
accumulated: each per-page feed is a slice of the filtered projection
`matchingIds docs` (the exclusion happens in the query, before
accumulation), and hence everything in the procedure's accumulated result
is the id of a matching document of the container. -/
theorem procedure_accumulates_only_matching (docs : List ThemeDoc)
    (budget : Nat) (tok : Option Nat) (k m : Nat) (x : IdDoc)
    (hx : x ∈ ((matchingIds docs).drop k).take m ∨
          x ∈ (scanLoop (matchingIds docs) 1000 budget [] tok).1) :
    ∃ c ∈ docs, c.imageCaptured = true ∧ x.id = c.id := by
  have hmem : x ∈ matchingIds docs := by
    rcases hx with h | h
    · exact List.drop_subset _ _ (List.take_subset _ _ h)
    · rcases scanLoop_mem _ _ _ _ _ _ h with h' | h'
      · exact absurd h' (List.not_mem_nil x)
      · exact h'
  simp only [matchingIds, List.mem_map, List.mem_filter] at hmem
  obtain ⟨c, ⟨hc, hcap⟩, hxc⟩ := hmem
  subst hxc
  exact ⟨c, hc, hcap, rfl⟩

/-- A concrete instance of C7: on a two-document container (one matching, one
not), the element accumulated by one scan is the id of the matching
document. -/
theorem procedure_accumulates_only_matching_witness :
    ((⟨"t1"⟩ : IdDoc) ∈ ((matchingIds [⟨"t1", true, "e1"⟩, ⟨"t2", false, "e2"⟩]).drop 0).take 1 ∨
      (⟨"t1"⟩ : IdDoc) ∈ (scanLoop (matchingIds [⟨"t1", true, "e1"⟩, ⟨"t2", false, "e2"⟩]) 1000 1 [] none).1) ∧
    ∃ c ∈ ([⟨"t1", true, "e1"⟩, ⟨"t2", false, "e2"⟩] : List ThemeDoc),
      c.imageCaptured = true ∧ (⟨"t1"⟩ : IdDoc).id = c.id :=
  ⟨Or.inl (by decide),
    procedure_accumulates_only_matching [⟨"t1", true, "e1"⟩, ⟨"t2", false, "e2"⟩]
      1 none 0 1 ⟨"t1"⟩ (Or.inl (by decide))⟩

/-- C10: finalizing with an empty accumulated set does not throw:
`getRandomInt(0, -1)` evaluates to `0`, indexing the empty array yields an
absent value, and `setBody` terminates normally with an absent `randomTheme`
and the token it was handed; consequently an invocation over a container with
no matching documents returns a body with an absent `randomTheme`. -/
theorem empty_result_finalizes_normally (random : ℚ) (tok : Option Nat)
    (docs : List ThemeDoc) (budget : Nat) (h : matchingIds docs = []) :
    getRandomInt random 0 (-1) = 0 ∧
    setBody random [] tok = { randomTheme := none, continuationToken := tok } ∧
    (getRandomTheme random docs budget tok).randomTheme = none := by
  have h0 : getRandomInt random 0 (-1) = 0 := by
    simp [getRandomInt]
  refine ⟨h0, ?_, ?_⟩
  · simp only [setBody, List.length_nil]
    norm_num [h0, jsIndex]
  · have hscan : (scanLoop (matchingIds docs) 1000 budget [] tok).1 = [] := by
      rw [h]
      cases budget with
      | zero => rfl
      | succ b => simp [scanLoop]
    simp only [getRandomTheme, setBody, hscan, List.length_nil]
    norm_num [h0, jsIndex]

/-- A concrete instance of C10: a container whose only document has
`imageCaptured = false`. -/
theorem empty_result_finalizes_normally_witness :
    matchingIds [⟨"t1", false, "e1"⟩] = [] ∧
    (getRandomInt (1/2) 0 (-1) = 0 ∧
      setBody (1/2) [] (some 5) = { randomTheme := none, continuationToken := some 5 } ∧
      (getRandomTheme (1/2) [⟨"t1", false, "e1"⟩] 3 (some 5)).randomTheme = none) :=
  ⟨by decide, empty_result_finalizes_normally (1/2) (some 5) [⟨"t1", false, "e1"⟩] 3 (by decide)⟩

/-- An element delivered by JavaScript indexing is a member of the array. -/
theorem jsIndex_mem {α : Type} (l : List α) (i : Int) (a : α)
    (h : jsIndex l i = some a) : a ∈ l := by
  unfold jsIndex at h
  split at h
  · exact Option.noConfusion h
  · have hi : i.toNat < l.length := by
      by_contra hc
      rw [List.getElem?_eq_none (by omega)] at h
      exact Option.noConfusion h
    rw [List.getElem?_eq_getElem hi] at h
    exact Option.some_injective _ h ▸ List.getElem_mem hi

/-- Evaluating `getRandomInt(0, result.length - 1)` gives `⌊random * result.length⌋`. -/
theorem getRandomInt_zero_pred (random : ℚ) (n : Nat) :
    getRandomInt random 0 ((n : Int) - 1) = ⌊random * (n : ℚ)⌋ := by
  unfold getRandomInt
  rw [add_zero]
  congr 1
  push_cast
  ring

/-- With `0 ≤ random < 1` and a nonempty accumulated array, `setBody` chooses
an element of the array. -/
theorem setBody_mem (random : ℚ) (result : List IdDoc) (tok : Option Nat)
    (hne : result ≠ []) (h0 : 0 ≤ random) (h1 : random < 1) :
    ∃ x ∈ result, (setBody random result tok).randomTheme = some x := by
  have hlen : 0 < result.length := List.length_pos.2 hne
  have hfl0 : (0 : Int) ≤ ⌊random * (result.length : ℚ)⌋ :=
    Int.floor_nonneg.mpr (by positivity)
  have hflt : ⌊random * (result.length : ℚ)⌋ < (result.length : Int) := by
    apply Int.floor_lt.mpr
    push_cast
    calc random * (result.length : ℚ) < 1 * (result.length : ℚ) := by
          apply mul_lt_mul_of_pos_right h1
          exact_mod_cast hlen
      _ = (result.length : ℚ) := one_mul _
  have ht : (⌊random * (result.length : ℚ)⌋).toNat < result.length := by omega
  refine ⟨result[(⌊random * (result.length : ℚ)⌋).toNat], List.getElem_mem ht, ?_⟩
  simp only [setBody, getRandomInt_zero_pred, jsIndex]
  rw [if_neg (by omega)]
  exact List.getElem?_eq_getElem ht

/-- Conversely, every element of the accumulated array is chosen by `setBody`
under some admissible value of the random draw: `random = i / length` selects
index `i`. -/
theorem setBody_exact (result : List IdDoc) (tok : Option Nat) (x : IdDoc)
    (hx : x ∈ result) :
    ∃ r : ℚ, 0 ≤ r ∧ r < 1 ∧ (setBody r result tok).randomTheme = some x := by
  obtain ⟨i, hi, hxi⟩ := List.mem_iff_getElem.1 hx
  have hlen : 0 < result.length := by omega
  have hlq : (0 : ℚ) < (result.length : ℚ) := by exact_mod_cast hlen
  refine ⟨(i : ℚ) / (result.length : ℚ), by positivity, ?_, ?_⟩
  · rw [div_lt_one hlq]
    exact_mod_cast hi
  · have hmul : (i : ℚ) / (result.length : ℚ) * (result.length : ℚ) = (i : ℚ) :=
      div_mul_cancel₀ _ (ne_of_gt hlq)
    simp only [setBody, getRandomInt_zero_pred, jsIndex, hmul, Int.floor_natCast]
    rw [if_neg (by omega)]
    rw [Int.toNat_natCast]
    rw [List.getElem?_eq_getElem hi, hxi]

/-- A below-cap invocation from the empty token with its first query accepted
scans the whole filtered projection in one page and finalizes with a null
token. -/
theorem getRandomTheme_below_cap (random : ℚ) (docs : List ThemeDoc) (b : Nat)
    (hlen : (matchingIds docs).length < 1000) :
    getRandomTheme random docs (b + 1) none =
      setBody random (matchingIds docs) none := by
  simp only [getRandomTheme]
  rw [scanLoop_single _ _ _ (by norm_num) none]
  simp only [Option.getD_none, List.drop_zero]
  rw [if_neg (by omega), List.take_of_length_le (by omega)]

/-- C2: over a container whose matching set has fewer documents than the cap
(1000), a single invocation of the procedure starting from the empty
continuation token (with at least its first query accepted by the host)
terminates with a null continuation token; any id it chooses belongs to the
matching set, it chooses one whenever the matching set is nonempty, and every
matching id is the choice under some admissible random draw — the choice is
drawn from exactly the matching set. -/
theorem single_invocation_below_cap (random : ℚ) (docs : List ThemeDoc)
    (budget : Nat) (hlen : (matchingIds docs).length < 1000)
    (hb : 1 ≤ budget) (h0 : 0 ≤ random) (h1 : random < 1) :
    (getRandomTheme random docs budget none).continuationToken = none ∧
    (∀ x, (getRandomTheme random docs budget none).randomTheme = some x →
      x ∈ matchingIds docs) ∧
    (matchingIds docs ≠ [] →
      ∃ x ∈ matchingIds docs,
        (getRandomTheme random docs budget none).randomTheme = some x) ∧
    (∀ x ∈ matchingIds docs, ∃ r : ℚ, 0 ≤ r ∧ r < 1 ∧
      (getRandomTheme r docs budget none).randomTheme = some x) := by
  obtain ⟨b, rfl⟩ : ∃ b, budget = b + 1 := ⟨budget - 1, by omega⟩
  rw [getRandomTheme_below_cap random docs b hlen]
  refine ⟨rfl, ?_, ?_, ?_⟩
  · intro x hx
    exact jsIndex_mem _ _ _ hx
  · intro hne
    exact setBody_mem random (matchingIds docs) none hne h0 h1
  · intro x hx
    obtain ⟨r, hr0, hr1, hr⟩ := setBody_exact (matchingIds docs) none x hx
    refine ⟨r, hr0, hr1, ?_⟩
    rw [getRandomTheme_below_cap r docs b hlen]
    exact hr

/-- A concrete instance of C2: two matching documents out of three, random
draw 1/2, budget 1. -/
theorem single_invocation_below_cap_witness :
    (matchingIds [⟨"t1", true, "e1"⟩, ⟨"t2", false, "e2"⟩, ⟨"t3", true, "e3"⟩]).length < 1000 ∧
    (1 : Nat) ≤ 1 ∧ (0 : ℚ) ≤ 1/2 ∧ (1/2 : ℚ) < 1 ∧
    ((getRandomTheme (1/2) [⟨"t1", true, "e1"⟩, ⟨"t2", false, "e2"⟩, ⟨"t3", true, "e3"⟩] 1 none).continuationToken = none ∧
      (∀ x, (getRandomTheme (1/2) [⟨"t1", true, "e1"⟩, ⟨"t2", false, "e2"⟩, ⟨"t3", true, "e3"⟩] 1 none).randomTheme = some x →
        x ∈ matchingIds [⟨"t1", true, "e1"⟩, ⟨"t2", false, "e2"⟩, ⟨"t3", true, "e3"⟩]) ∧
      (matchingIds [⟨"t1", true, "e1"⟩, ⟨"t2", false, "e2"⟩, ⟨"t3", true, "e3"⟩] ≠ [] →
        ∃ x ∈ matchingIds [⟨"t1", true, "e1"⟩, ⟨"t2", false, "e2"⟩, ⟨"t3", true, "e3"⟩],
          (getRandomTheme (1/2) [⟨"t1", true, "e1"⟩, ⟨"t2", false, "e2"⟩, ⟨"t3", true, "e3"⟩] 1 none).randomTheme = some x) ∧
      (∀ x ∈ matchingIds [⟨"t1", true, "e1"⟩, ⟨"t2", false, "e2"⟩, ⟨"t3", true, "e3"⟩],
        ∃ r : ℚ, 0 ≤ r ∧ r < 1 ∧
          (getRandomTheme r [⟨"t1", true, "e1"⟩, ⟨"t2", false, "e2"⟩, ⟨"t3", true, "e3"⟩] 1 none).randomTheme = some x)) :=
  ⟨by decide, le_refl 1, by norm_num, by norm_num,
    single_invocation_below_cap (1/2) [⟨"t1", true, "e1"⟩, ⟨"t2", false, "e2"⟩, ⟨"t3", true, "e3"⟩]
      1 (by decide) (le_refl 1) (by norm_num) (by norm_num)⟩

/-- After `j` reinvocations (each with its first query accepted), the
resumption protocol has covered exactly the first `(j+1)*1000` entries of the
filtered projection, and its last token is the next offset — or null once the
projection is exhausted. -/
theorem resumeScan_eq (docs : List ThemeDoc) (b : Nat) :
    ∀ j : Nat, j * 1000 < (matchingIds docs).length →
      resumeScan docs (b + 1) j =
        ((matchingIds docs).take ((j + 1) * 1000),
          if (j + 1) * 1000 < (matchingIds docs).length then some ((j + 1) * 1000)
          else none) := by
  intro j
  induction j with
  | zero =>
    intro hj
    show scanLoop (matchingIds docs) 1000 (b + 1) [] none = _
    rw [scanLoop_single _ _ _ (by norm_num) none]
    simp only [Option.getD_none, List.drop_zero]
  | succ j ih =>
    intro hj
    have hj' : j * 1000 < (matchingIds docs).length := by omega
    simp only [resumeScan]
    rw [ih hj', if_pos hj]
    dsimp only
    rw [scanLoop_single _ _ _ (by norm_num) (some ((j + 1) * 1000))]
    simp only [Option.getD_some]
    have harith : (j + 1) * 1000 + 1000 = (j + 1 + 1) * 1000 := by ring
    rw [← List.take_add, harith]

/-- C3: over a container whose matching set exceeds the cap (1000), a single
invocation from the empty token returns a non-null continuation token, and
reinvoking the procedure with each returned token reaches, after finitely
many reinvocations, a null token with the scans having covered the whole
matching set. -/
theorem single_invocation_above_cap (random : ℚ) (docs : List ThemeDoc)
    (budget : Nat) (hlen : 1000 < (matchingIds docs).length) (hb : 1 ≤ budget) :
    (getRandomTheme random docs budget none).continuationToken ≠ none ∧
    ∃ n, resumeScan docs budget n = (matchingIds docs, none) := by
  obtain ⟨b, rfl⟩ : ∃ b, budget = b + 1 := ⟨budget - 1, by omega⟩
  constructor
  · show (scanLoop (matchingIds docs) 1000 (b + 1) [] none).2 ≠ none
    rw [scanLoop_single _ _ _ (by norm_num) none]
    simp only [Option.getD_none]
    rw [if_pos (by omega)]
    simp
  · refine ⟨((matchingIds docs).length - 1) / 1000, ?_⟩
    have hdm := Nat.div_add_mod ((matchingIds docs).length - 1) 1000
    have hmod : ((matchingIds docs).length - 1) % 1000 < 1000 :=
      Nat.mod_lt _ (by norm_num)
    have h1 : (((matchingIds docs).length - 1) / 1000) * 1000 <
        (matchingIds docs).length := by
      have := Nat.div_mul_le_self ((matchingIds docs).length - 1) 1000
      omega
    rw [resumeScan_eq docs b _ h1]
    rw [if_neg (by omega), List.take_of_length_le (by omega)]

set_option maxRecDepth 10000 in
/-- A concrete instance of C3: 1001 matching documents, one more than the
cap. -/
theorem single_invocation_above_cap_witness :
    1000 < (matchingIds (List.replicate 1001 ⟨"t", true, "e"⟩)).length ∧
    (1 : Nat) ≤ 1 ∧
    ((getRandomTheme 0 (List.replicate 1001 ⟨"t", true, "e"⟩) 1 none).continuationToken ≠ none ∧
      ∃ n, resumeScan (List.replicate 1001 ⟨"t", true, "e"⟩) 1 n =
        (matchingIds (List.replicate 1001 ⟨"t", true, "e"⟩), none)) :=
  ⟨by simp [matchingIds, List.filter_replicate],
    le_refl 1,
    single_invocation_above_cap 0 (List.replicate 1001 ⟨"t", true, "e"⟩) 1
      (by simp [matchingIds, List.filter_replicate]) (le_refl 1)⟩

/-! ## The `ThemeExtensionFetch` handler and the procedure installer -/

/-- The response body `context.res.body = ... theme, extension ...` of the
fetch handler; either record may be absent (serialized as a missing field). -/
structure FetchBody where
  theme : Option ThemeDoc
  extension : Option Extension
  deriving DecidableEq

/-- The response assigned to `context.res` by the fetch handler. -/
structure FetchRes where
  status : Nat
  body : FetchBody
  deriving DecidableEq

/-- The `ThemeExtensionFetch` `httpTrigger`.

`sprocOk` is whether `getStoredProcedure` produced a handle (`!sproc` throws
otherwise); `exec` models `sproc.execute`, mapping the continuation token
passed (`none` for `execute(undefined)`) to the procedure's response body;
`themes`/`extensions` are the two containers.  Returns the handler's outcome
(`Except.error` = an unhandled throw) together with the trace of continuation
tokens passed to `execute`, in order. -/
def themeExtensionFetchHandler (sprocOk : Bool) (exec : Option Nat → ProcBody)
    (themes : List ThemeDoc) (extensions : List Extension) :
    Except String FetchRes × List (Option Nat) :=
  if !sprocOk then
    (Except.error "An error occurred while fetching the storedProcedure", [])
  else
    -- const response = await sproc.execute(undefined);
    let response := exec none
    let calls : List (Option Nat) := [none]
    -- const ... randomTheme ... = response.resource; then randomTheme.id below
    match response.randomTheme with
    | none =>
      (Except.error "TypeError: Cannot read properties of undefined (reading id)", calls)
    | some randomTheme =>
      -- SELECT * from c WHERE c.id = @themeId ; theme = resources[0]
      let resources := themes.filter (fun c => c.id == randomTheme.id)
      let theme := resources.head?
      -- theme.extensionId is read before the `theme ? 200 : 404` check
      match theme with
      | none =>
        (Except.error "TypeError: Cannot read properties of undefined (reading extensionId)",
          calls)
      | some t =>
        -- SELECT * from c WHERE c.extensionId = @extensionId ; resources[0]
        let extensionResources :=
          extensions.filter (fun c => c.extensionId == t.extensionId)
        let chosenExtension := extensionResources.head?
        (Except.ok { status := if theme.isSome then 200 else 404,
                     body := { theme := theme, extension := chosenExtension } }, calls)

/-- C6: the fetch handler invokes the sampling procedure exactly once, with
the empty continuation token (its invocation trace is `[none]`), and its
whole outcome depends only on the `randomTheme` field of that single
invocation: two procedure oracles agreeing on that field — in particular
ones returning different continuation tokens, or behaving differently on
resumed tokens — give identical handler behavior, so the returned token is
discarded and the scan is never resumed. -/
theorem fetch_invokes_procedure_once (exec exec' : Option Nat → ProcBody)
    (themes : List ThemeDoc) (extensions : List Extension)
    (h : (exec none).randomTheme = (exec' none).randomTheme) :
    (themeExtensionFetchHandler true exec themes extensions).2 = [none] ∧
    themeExtensionFetchHandler true exec themes extensions =
      themeExtensionFetchHandler true exec' themes extensions := by
  constructor
  · cases hrt : (exec none).randomTheme with
    | none => simp [themeExtensionFetchHandler, hrt]
    | some rid =>
      cases hth : (themes.filter (fun c => c.id == rid.id)).head? with
      | none => simp [themeExtensionFetchHandler, hrt, hth]
      | some t => simp [themeExtensionFetchHandler, hrt, hth]
  · simp only [themeExtensionFetchHandler, Bool.not_true, Bool.false_eq_true,
      if_false, h]

/-- The two oracles of the C6 witness: they agree on `randomTheme` but return
different continuation tokens. -/
def procOracleA : Option Nat → ProcBody :=
  fun _ => { randomTheme := some ⟨"t1"⟩, continuationToken := some 7 }

/-- Second oracle of the C6 witness. -/
def procOracleB : Option Nat → ProcBody :=
  fun _ => { randomTheme := some ⟨"t1"⟩, continuationToken := none }

/-- A concrete instance of C6. -/
theorem fetch_invokes_procedure_once_witness :
    (procOracleA none).randomTheme = (procOracleB none).randomTheme ∧
    ((themeExtensionFetchHandler true procOracleA
        [⟨"t1", true, "e1"⟩] [⟨"x1", "e1", "n1"⟩]).2 = [none] ∧
      themeExtensionFetchHandler true procOracleA
          [⟨"t1", true, "e1"⟩] [⟨"x1", "e1", "n1"⟩] =
        themeExtensionFetchHandler true procOracleB
          [⟨"t1", true, "e1"⟩] [⟨"x1", "e1", "n1"⟩]) :=
  ⟨rfl, fetch_invokes_procedure_once procOracleA procOracleB
    [⟨"t1", true, "e1"⟩] [⟨"x1", "e1", "n1"⟩] rfl⟩

/-- C4 (behavior at the failing input): when the theme lookup returns zero
results, the fetch handler does not respond `404`: it throws a `TypeError`
dereferencing `theme.extensionId` before the `theme ? 200 : 404` check is
reached, so the `404` branch is unreachable. -/
theorem fetch_theme_miss_throws (exec : Option Nat → ProcBody)
    (themes : List ThemeDoc) (extensions : List Extension) (rid : IdDoc)
    (h1 : (exec none).randomTheme = some rid)
    (h2 : themes.filter (fun c => c.id == rid.id) = []) :
    (themeExtensionFetchHandler true exec themes extensions).1 =
      Except.error "TypeError: Cannot read properties of undefined (reading extensionId)" := by
  simp only [themeExtensionFetchHandler, Bool.not_true, Bool.false_eq_true,
    if_false, h1, h2, List.head?_nil]

/-- The procedure oracle of the C4 witness: it returns an id matching no
document of the themes container. -/
def ghostProcOracle : Option Nat → ProcBody :=
  fun _ => { randomTheme := some ⟨"ghost"⟩, continuationToken := none }

/-- A concrete instance of C4's failing input: the procedure hands back id
"ghost", and no theme document carries that id. -/
theorem fetch_theme_miss_throws_witness :
    (ghostProcOracle none).randomTheme = some ⟨"ghost"⟩ ∧
    ([⟨"t1", true, "e1"⟩] : List ThemeDoc).filter (fun c => c.id == "ghost") = [] ∧
    (themeExtensionFetchHandler true ghostProcOracle [⟨"t1", true, "e1"⟩] []).1 =
      Except.error "TypeError: Cannot read properties of undefined (reading extensionId)" :=
  ⟨rfl, rfl,
    fetch_theme_miss_throws ghostProcOracle [⟨"t1", true, "e1"⟩] [] ⟨"ghost"⟩ rfl rfl⟩

/-- C9: a theme whose `extensionId` matches no extension document does not
crash the fetch handler: the absent extension lookup result is never
dereferenced, and the handler completes with a `200` response carrying the
theme and an absent extension. -/
theorem fetch_missing_extension_no_crash (exec : Option Nat → ProcBody)
    (themes : List ThemeDoc) (extensions : List Extension) (rid : IdDoc)
    (t : ThemeDoc)
    (h1 : (exec none).randomTheme = some rid)
    (h2 : (themes.filter (fun c => c.id == rid.id)).head? = some t)
    (h3 : extensions.filter (fun c => c.extensionId == t.extensionId) = []) :
    (themeExtensionFetchHandler true exec themes extensions).1 =
      Except.ok { status := 200, body := { theme := some t, extension := none } } := by
  simp only [themeExtensionFetchHandler, Bool.not_true, Bool.false_eq_true,
    if_false, h1, h2, h3, List.head?_nil, Option.isSome_some, if_pos]

/-- The procedure oracle of the C9 witness. -/
def t1ProcOracle : Option Nat → ProcBody :=
  fun _ => { randomTheme := some ⟨"t1"⟩, continuationToken := none }

/-- A concrete instance of C9: the chosen theme's `extensionId` ("e-orphan")
matches no extension document, and the handler still completes. -/
theorem fetch_missing_extension_no_crash_witness :
    (t1ProcOracle none).randomTheme = some ⟨"t1"⟩ ∧
    (([⟨"t1", true, "e-orphan"⟩] : List ThemeDoc).filter (fun c => c.id == "t1")).head? =
      some ⟨"t1", true, "e-orphan"⟩ ∧
    ([⟨"x1", "e1", "n1"⟩] : List Extension).filter (fun c => c.extensionId == "e-orphan") = [] ∧
    (themeExtensionFetchHandler true t1ProcOracle
        [⟨"t1", true, "e-orphan"⟩] [⟨"x1", "e1", "n1"⟩]).1 =
      Except.ok { status := 200,
                  body := { theme := some ⟨"t1", true, "e-orphan"⟩, extension := none } } :=
  ⟨rfl, rfl, rfl,
    fetch_missing_extension_no_crash t1ProcOracle
      [⟨"t1", true, "e-orphan"⟩] [⟨"x1", "e1", "n1"⟩] ⟨"t1"⟩
      ⟨"t1", true, "e-orphan"⟩ rfl rfl rfl⟩

/-! ## `getStoredProcedure` (the installer) -/

/-- A stored-procedure resource of the container: an id and a body string. -/
structure StoredProcedureDef where
  id : String
  body : String
  deriving DecidableEq

/-- The outcome of `getStoredProcedure`: the handle it returned (a handle is
identified by the procedure id; `none` models the `null` return), the
container's stored procedures after the call, and whether a create call was
issued. -/
structure GetSprocResult where
  handle : Option String
  scripts : List StoredProcedureDef
  created : Bool
  deriving DecidableEq

/-- The `getRandomTheme` script string shipped in `sprocDefinition.body`; its
logic is embedded as `scanLoop`/`setBody`/`getRandomInt` above, so the text
itself is summarized here. -/
def getRandomThemeScript : String :=
  "function getRandomTheme(continuationToken) -- scan pages of the filtered query, cap 1000, then setBody with a random element"

/-- The installer `getStoredProcedure(sprocId, container)`.

`scripts` is `container.scripts.storedProcedures.readAll().fetchAll().resources`;
`createStatusCode` is the status the store answers to a create call (the real
store answers 201 Created on success).  The source checks presence by id
only (`storedProcedures.find(sproc => sproc.id === sprocId)`), returns a
handle by id without touching the container, and otherwise submits the fixed
definition and returns its handle only on status 200. -/
def getStoredProcedure (sprocId : String) (scripts : List StoredProcedureDef)
    (createStatusCode : Nat) : GetSprocResult :=
  let storedProcedures := scripts
  if (storedProcedures.find? (fun sproc => sproc.id == sprocId)).isSome then
    { handle := some sprocId, scripts := scripts, created := false }
  else
    let sprocDefinition : StoredProcedureDef :=
      { id := sprocId, body := getRandomThemeScript }
    let scripts' := scripts ++ [sprocDefinition]
    if createStatusCode == 200 then
      { handle := some sprocId, scripts := scripts', created := true }
    else
      { handle := none, scripts := scripts', created := true }

/-- C8: when a stored procedure with the target name already exists in the
container, `getStoredProcedure` returns a handle to it by name, issues no
create call and leaves the container's procedures unchanged — whatever their
bodies are and whatever the store would answer to a create; hence the
procedure resource is created at most once and never modified thereafter. -/
theorem getStoredProcedure_existing (sprocId : String)
    (scripts : List StoredProcedureDef) (createStatusCode : Nat)
    (h : ∃ s ∈ scripts, s.id = sprocId) :
    getStoredProcedure sprocId scripts createStatusCode =
      { handle := some sprocId, scripts := scripts, created := false } := by
  have hfind : (scripts.find? (fun sproc => sproc.id == sprocId)).isSome := by
    rw [List.find?_isSome]
    obtain ⟨s, hs, hid⟩ := h
    exact ⟨s, hs, by simp [hid]⟩
  simp [getStoredProcedure, hfind]

/-- A concrete instance of C8: the container already holds a procedure named
"getRandomTheme" with some historical body, and the store would answer 500 to
any create — the call still returns the existing handle untouched. -/
theorem getStoredProcedure_existing_witness :
    (∃ s ∈ ([⟨"getRandomTheme", "older body"⟩, ⟨"other", "x"⟩] : List StoredProcedureDef),
      s.id = "getRandomTheme") ∧
    getStoredProcedure "getRandomTheme"
        [⟨"getRandomTheme", "older body"⟩, ⟨"other", "x"⟩] 500 =
      { handle := some "getRandomTheme",
        scripts := [⟨"getRandomTheme", "older body"⟩, ⟨"other", "x"⟩],
        created := false } :=
  ⟨⟨⟨"getRandomTheme", "older body"⟩, by decide, rfl⟩,
    getStoredProcedure_existing "getRandomTheme"
      [⟨"getRandomTheme", "older body"⟩, ⟨"other", "x"⟩] 500
      ⟨⟨"getRandomTheme", "older body"⟩, by decide, rfl⟩⟩
